import Mathlib

/-!
Verification development for the pyss repository (src/pyss/semanticscholar.py).

The Python module is shallowly embedded:

* Python strings are lists of Unicode codepoints (List Nat); the character
  level operations used by the module (str.lower, string.punctuation
  replacement, the regex sub of runs of whitespace) are modelled exactly on
  the ASCII range, which is the range the module manipulates.
* JSON-decoded Python values are the inductive type PyVal; a JSON object is
  an association list of string keys.
* datetime values are the structure PyDateTime.  dateutil.parser.parse is an
  external dependency of the repository (not part of its sources), so date
  parsing is modelled from the spec as a total function (the spec leaves the
  parse-failure policy open, section 9 of spec.md).
* Raised exceptions are values of PyExc; fallible code returns Except.
* The per-operation retry loop (identical in the four public operations, with
  the operation-specific exhaustion exception) is modelled as the function
  attemptLoop over an oracle giving the outcome of each network attempt.
-/

set_option autoImplicit false

namespace Pyss

/-! ### Python values (JSON-decoded data plus datetime) -/

/-- Model of Python datetime.datetime as used by the module (only the date
components are ever relevant). -/
structure PyDateTime where
  year : Nat
  month : Nat
  day : Nat
deriving DecidableEq, Repr

/-- Model of a Python value as produced by json.loads, together with the
datetime values produced by date parsing and used as defaults.  A JSON object
is an association list (Python dict keys are unique, lookup takes the first
binding). -/
inductive PyVal where
  | vnull : PyVal
  | vbool : Bool → PyVal
  | vint : Int → PyVal
  | vfloat : ℚ → PyVal
  | vstr : String → PyVal
  | vdate : PyDateTime → PyVal
  | vlist : List PyVal → PyVal
  | vdict : List (String × PyVal) → PyVal

/-- A Python dict of JSON data: association list with string keys. -/
abbrev PyDict := List (String × PyVal)

namespace PyVal

/-- Python isinstance(x, list). -/
def isList : PyVal → Bool
  | vlist _ => true
  | _ => false

/-- Python isinstance(x, dict). -/
def isDict : PyVal → Bool
  | vdict _ => true
  | _ => false

/-- Python isinstance(x, str). -/
def isStr : PyVal → Bool
  | vstr _ => true
  | _ => false

/-- Python isinstance(x, datetime). -/
def isDate : PyVal → Bool
  | vdate _ => true
  | _ => false

/-- Python isinstance(x, int).  In Python, bool is a subclass of int, so
isinstance(True, int) is True; this is load-bearing for the __clean helper,
which has no bool branch. -/
def isInstInt : PyVal → Bool
  | vint _ => true
  | vbool _ => true
  | _ => false

/-- Python isinstance(x, float) (bool/int are not floats). -/
def isFloat : PyVal → Bool
  | vfloat _ => true
  | _ => false

/-- Python truthiness of a JSON-decoded value. -/
def truthy : PyVal → Bool
  | vnull => false
  | vbool b => b
  | vint n => n ≠ 0
  | vfloat q => q ≠ 0
  | vstr s => s ≠ ""
  | vdate _ => true
  | vlist xs => ¬ xs.isEmpty
  | vdict kvs => ¬ kvs.isEmpty

end PyVal

/-- Epoch-like default date used by the normalizer: datetime(1900, 1, 1). -/
def date1900 : PyDateTime := ⟨1900, 1, 1⟩

/-- Modelled from the spec: dateutil.parser.parse is an external dependency of
the repository; the spec (section 4.3 and section 9) says dates are parsed
from free-form text into a structured date value and leaves the failure
policy open.  The model parses an ISO YYYY-MM-DD prefix and is total,
falling back to the default date on any other shape. -/
def parseDatePy (v : PyVal) : PyDateTime :=
  match v with
  | PyVal.vstr s =>
    match s.split (· = '-') with
    | [y, m, d] =>
      match y.toNat?, m.toNat?, d.toNat? with
      | some yn, some mn, some dn => ⟨yn, mn, dn⟩
      | _, _, _ => date1900
    | _ => date1900
  | _ => date1900

/-! ### The field cleaner (SemanticScholar.__clean, source lines 175-191) -/

/-- Embedding of SemanticScholar.__clean.  The source initializes res to the
default, and only overwrites it when the key is present and one of the
branches fires, in source order: list/list, dict/dict, str/str, then
(truthy value and datetime default) which stores the parsed date, then
int/int (Python isinstance, so bool counts as int), then float/float. -/
def clean (dic : PyDict) (key : String) (default : PyVal) : PyVal :=
  match dic.lookup key with
  | none => default
  | some v =>
    if default.isList ∧ v.isList then v
    else if default.isDict ∧ v.isDict then v
    else if default.isStr ∧ v.isStr then v
    else if v.truthy ∧ default.isDate then PyVal.vdate (parseDatePy v)
    else if default.isInstInt ∧ v.isInstInt then v
    else if default.isFloat ∧ v.isFloat then v
    else default

/-! ### Exceptions and the retry controller (source lines 22-52 and 193-223) -/

/-- Exceptions that the module can raise or catch.  httpError carries the
HTTP status code and the (optional) OS-level errno of urllib.error.HTTPError;
plainException models a bare Exception(msg); unboundLocalError models the
Python error raised when the loop body never ran and the response variable is
read afterwards. -/
inductive PyExc where
  | httpError : Int → Option Int → PyExc
  | urlError : PyExc
  | socketTimeout : PyExc
  | otherException : PyExc
  | noPaperFound : PyExc
  | noAuthorFound : PyExc
  | exceedMaxRetryCount : PyExc
  | plainException : PyExc
  | keyError : PyExc
  | attributeError : PyExc
  | typeError : PyExc
  | unboundLocalError : PyExc
deriving DecidableEq, Repr

namespace PyExc

/-- Python isinstance(ex, HTTPError). -/
def isHTTPError : PyExc → Bool
  | httpError _ _ => true
  | _ => false

/-- The code attribute of an HTTPError. -/
def codeOf : PyExc → Option Int
  | httpError c _ => some c
  | _ => none

/-- The errno attribute of an HTTPError. -/
def errnoOf : PyExc → Option (Option Int)
  | httpError _ e => some e
  | _ => none

end PyExc

/-- Kind of blocking wait performed before the next attempt: the long fixed
30-second wait (30 iterations of time.sleep(1.0)) or the short
time.sleep(sleep) wait. -/
inductive WaitKind where
  | long30 : WaitKind
  | short : WaitKind
deriving DecidableEq, Repr

/-- Embedding of SemanticScholar.__retry_and_wait (source lines 193-223).
The source first increments the counter and re-raises the exception when the
incremented counter exceeds max_retry_count; otherwise it classifies: an
HTTPError with errno -3 waits 30 seconds, an HTTPError with code 429 waits 30
seconds, any other HTTPError is re-raised, and every non-HTTPError exception
sleeps the short delay.  Returning Except.ok gives the new counter and the
wait performed; Except.error is a re-raise (no sleep happened). -/
def retryAndWait (maxRetryCount : Int) (ex : PyExc) (retry : Int) :
    Except PyExc (Int × WaitKind) :=
  let retry' := retry + 1
  if maxRetryCount < retry' then Except.error ex
  else if ex.isHTTPError ∧ ex.errnoOf = some (some (-3)) then
    Except.ok (retry', WaitKind.long30)
  else if ex.isHTTPError ∧ ex.codeOf = some 429 then
    Except.ok (retry', WaitKind.long30)
  else if ex.isHTTPError then Except.error ex
  else Except.ok (retry', WaitKind.short)

/-- An exception is retryable when __retry_and_wait (given remaining budget)
sleeps and returns instead of re-raising: every non-HTTPError, and the
HTTPErrors with errno -3 or status code 429. -/
def retryable : PyExc → Bool
  | PyExc.httpError c e => e = some (-3) ∨ c = 429
  | _ => true

/-- Outcome of the loop embedding: the final result of the try/except loop
(the successful JSON content, or the exception that propagates) and the
number of attempts that were actually issued. -/
structure LoopOut where
  result : Except PyExc PyDict
  attempts : Nat

/-- Embedding of the retry loop shared by the four public operations
(source lines 265-291, 337-404, 499-528, 561-590):

retry = 0; while retry < max_retry_count: try the attempt and break on
success; on exception set retry = __retry_and_wait(ex, retry); then if
max_retry_count <= retry raise the operation-specific exhaustion exception.
Falling out of the while loop without any attempt (possible only when
max_retry_count <= 0 at entry) leaves the response variable unbound and the
code below the loop raises UnboundLocalError.  The oracle att gives the
outcome of the i-th attempt (0-based); retry equals the number of attempts
already made, because __retry_and_wait increments by exactly one. -/
def attemptLoopAux (maxRetryCount : Int) (exhaust : PyExc)
    (att : Nat → Except PyExc PyDict) : Nat → Nat → LoopOut
  | 0, retry => ⟨Except.error PyExc.unboundLocalError, retry⟩
  | fuel + 1, retry =>
    if (retry : Int) < maxRetryCount then
      match att retry with
      | Except.ok content => ⟨Except.ok content, retry + 1⟩
      | Except.error ex =>
        match retryAndWait maxRetryCount ex (retry : Int) with
        | Except.error ex2 => ⟨Except.error ex2, retry + 1⟩
        | Except.ok (retry2, _) =>
          if maxRetryCount ≤ retry2 then ⟨Except.error exhaust, retry + 1⟩
          else attemptLoopAux maxRetryCount exhaust att fuel (retry + 1)
    else ⟨Except.error PyExc.unboundLocalError, retry⟩

/-- Entry point of the loop embedding: the while loop starts at retry = 0.
The fuel bounds the number of loop-header evaluations; the counter strictly
increases by one per iteration and the loop exits once the counter reaches
max_retry_count, so the fuel passed here is never exhausted (the fuel-out
branch repeats the unbound-variable outcome and is unreachable from here). -/
def attemptLoop (maxRetryCount : Int) (exhaust : PyExc)
    (att : Nat → Except PyExc PyDict) : LoopOut :=
  attemptLoopAux maxRetryCount exhaust att (maxRetryCount.toNat + 1) 0

/-- The retry loop of get_paper_id_from_title (source lines 265-291): on
exhaustion it raises ExceedMaxRetryCountException. -/
def getPaperIdLoop (maxRetryCount : Int) (att : Nat → Except PyExc PyDict) : LoopOut :=
  attemptLoop maxRetryCount PyExc.exceedMaxRetryCount att

/-- The retry loop of get_paper_detail (source lines 337-404): on exhaustion
it raises ExceedMaxRetryCountException. -/
def getPaperDetailLoop (maxRetryCount : Int) (att : Nat → Except PyExc PyDict) : LoopOut :=
  attemptLoop maxRetryCount PyExc.exceedMaxRetryCount att

/-- The retry loop of get_author_detail_by_name (source lines 499-528): on
exhaustion it raises a bare Exception, not the dedicated typed error. -/
def getAuthorByNameLoop (maxRetryCount : Int) (att : Nat → Except PyExc PyDict) : LoopOut :=
  attemptLoop maxRetryCount PyExc.plainException att

/-- The retry loop of get_author_detail (source lines 561-590): on exhaustion
it raises a bare Exception, not the dedicated typed error. -/
def getAuthorDetailLoop (maxRetryCount : Int) (att : Nat → Except PyExc PyDict) : LoopOut :=
  attemptLoop maxRetryCount PyExc.plainException att

/-! ### Python strings and the title normalization (source lines 236-243,
259-263, 297-301) -/

/-- Python strings are sequences of Unicode codepoints; the model uses the
codepoints directly. -/
abbrev PyStr := List Nat

/-- Codepoints of a Lean string literal, for concrete inputs. -/
def codes (s : String) : PyStr := s.data.map Char.toNat

/-- Characters matched by the regex class for whitespace on the ASCII range:
space and the five control characters tab through carriage return. -/
def pySpace (n : Nat) : Bool := n = 32 ∨ (9 ≤ n ∧ n ≤ 13)

/-- Membership in string.punctuation, which is exactly the four ASCII ranges
33-47, 58-64, 91-96 and 123-126. -/
def pyPunct (n : Nat) : Bool :=
  (33 ≤ n ∧ n ≤ 47) ∨ (58 ≤ n ∧ n ≤ 64) ∨ (91 ≤ n ∧ n ≤ 96) ∨ (123 ≤ n ∧ n ≤ 126)

/-- Python str.lower on the ASCII range: uppercase letters shift by 32,
everything else is untouched. -/
def lowerNat (n : Nat) : Nat := if 65 ≤ n ∧ n ≤ 90 then n + 32 else n

/-- One character of the punctuation-replacement loop: every punctuation
character becomes a space (codepoint 32). -/
def punctNat (n : Nat) : Nat := if pyPunct n then 32 else n

/-- The str.lower step applied to a whole string. -/
def lowerStep (l : PyStr) : PyStr := l.map lowerNat

/-- The loop over string.punctuation replacing each punctuation character by
a space (the replacements are independent, so the loop is a single map). -/
def punctStep (l : PyStr) : PyStr := l.map punctNat

/-- Embedding of the whitespace-collapsing call: a regex sub replacing a run
of two or more whitespace characters by one space, limited to the first k
matches (the source passes count=1000).  The Boolean state is true while the
tail of an already-replaced run is being dropped.  In the false state, a
whitespace character followed by another whitespace character starts a match
when budget remains; the greedy pattern consumes the whole run, so the
remaining run is dropped in the true state. -/
def subWS : Nat → Bool → PyStr → PyStr
  | _, _, [] => []
  | k, true, c :: cs => if pySpace c then subWS k true cs else c :: subWS k false cs
  | k, false, c :: cs =>
    if pySpace c then
      match k, cs with
      | Nat.succ k', c2 :: _ =>
        if pySpace c2 then 32 :: subWS k' true cs else c :: subWS (Nat.succ k') false cs
      | _, _ => c :: subWS k false cs
    else c :: subWS k false cs

/-- The full normalization performed inside is_match_title on each argument
(source lines 236-243): lowercase, replace punctuation by spaces, collapse
runs of whitespace with replacement budget 1000. -/
def normalize (l : PyStr) : PyStr := subWS 1000 false (punctStep (lowerStep l))

/-- The pre-normalization of the query inside get_paper_id_from_title
(source lines 259-263): punctuation replacement and whitespace collapsing,
with no lowercasing. -/
def preQuery (l : PyStr) : PyStr := subWS 1000 false (punctStep l)

/-- Python str.strip with no arguments: drop leading and trailing
whitespace. -/
def pyStrip (l : PyStr) : PyStr :=
  ((l.dropWhile pySpace).reverse.dropWhile pySpace).reverse

/-- Head-of-string whitespace test (false for the empty string). -/
def headSpace : PyStr → Bool
  | [] => false
  | c :: _ => pySpace c

/-- Presence of two adjacent whitespace characters, that is, of a run the
regex of the collapsing step would still match. -/
def hasAdjSpace : PyStr → Bool
  | c1 :: c2 :: cs => (pySpace c1 && pySpace c2) || hasAdjSpace (c2 :: cs)
  | _ => false

/-- Number of maximal runs of two or more whitespace characters, computed
with the same two-state scan as subWS (the true state walks the tail of a
run already counted).  This is the number of replacements an unbounded
regex sub would perform. -/
def countRuns : Bool → PyStr → Nat
  | _, [] => 0
  | true, c :: cs => if pySpace c then countRuns true cs else countRuns false cs
  | false, c :: cs =>
    if pySpace c then
      match cs with
      | c2 :: _ => if pySpace c2 then 1 + countRuns true cs else countRuns false cs
      | [] => 0
    else countRuns false cs

/-- Witness family for the idempotency analysis: k repetitions of the letter
a followed by two spaces, a string with k collapsible whitespace runs. -/
def pat : Nat → PyStr
  | 0 => []
  | k + 1 => 97 :: 32 :: 32 :: pat k

/-- Fully collapsed form of pat: the letter a and a single space, k times. -/
def colPat : Nat → PyStr
  | 0 => []
  | k + 1 => 97 :: 32 :: colPat k

/-! ### The similarity score and is_match_title (source lines 225-246).

The score itself comes from sumeval's RougeCalculator, an external dependency
of the repository; the spec (section 4.2) describes it as a longest common
subsequence based F-measure computed between the normalized query (summary)
and the normalized candidate (reference).  It is modelled from the spec:
whitespace tokenization, LCS length over the token sequences, and the
harmonic F-measure of LCS precision and recall, as exact rational numbers. -/

/-- Whitespace tokenization of a normalized string: maximal nonempty chunks
of non-whitespace characters. -/
def tokensOf (l : PyStr) : List PyStr :=
  (l.splitOnP (pySpace ·)).filter (fun t => ¬ t.isEmpty)

/-- Length of a longest common subsequence of two token sequences, computed
with explicit fuel so that the definition is structural (the fuel never runs
out when it starts at the sum of the lengths). -/
def lcsAux : Nat → List PyStr → List PyStr → Nat
  | 0, _, _ => 0
  | _ + 1, [], _ => 0
  | _ + 1, _, [] => 0
  | fuel + 1, a :: as, b :: bs =>
    if a = b then 1 + lcsAux fuel as bs
    else max (lcsAux fuel (a :: as) bs) (lcsAux fuel as (b :: bs))

/-- Length of a longest common subsequence of two token sequences. -/
def lcsLen (xs ys : List PyStr) : Nat := lcsAux (xs.length + ys.length) xs ys

/-- Modelled from the spec: the LCS-based F-measure similarity of sumeval's
rouge_l (an external dependency), with summary x and reference y, as an
exact rational: zero when either token sequence is empty, otherwise the
harmonic mean of LCS precision and recall. -/
def rougeL (x y : PyStr) : ℚ :=
  let s := tokensOf x
  let r := tokensOf y
  if s.isEmpty ∨ r.isEmpty then 0
  else
    let m : ℚ := lcsLen s r
    let p : ℚ := m / s.length
    let q : ℚ := m / r.length
    if p + q = 0 then 0 else 2 * p * q / (p + q)

/-- Embedding of SemanticScholar.is_match_title (source lines 225-246): both
arguments are normalized (lowercase, punctuation to spaces, whitespace
collapse with budget 1000), the similarity is computed, and the result is
true exactly when the score STRICTLY exceeds the threshold. -/
def isMatchTitle (threshold : ℚ) (title refTitle : PyStr) : Bool :=
  threshold < rougeL (normalize title) (normalize refTitle)

/-- Kind agreement as __clean actually tests it for the non-date defaults,
through Python isinstance: strings, lists and dicts match exactly their own
kind, int and bool form a single kind (bool is an int subtype), and floats
match only floats. -/
def kindMatches (default v : PyVal) : Bool :=
  (default.isList ∧ v.isList) ∨ (default.isDict ∧ v.isDict) ∨
  (default.isStr ∧ v.isStr) ∨ (default.isInstInt ∧ v.isInstInt) ∨
  (default.isFloat ∧ v.isFloat)

/-! ### Candidate scan of get_paper_id_from_title (source lines 293-305) -/

/-- Title entry of a candidate item, when the item is a dict carrying a
string under the title key. -/
def itemTitleStr (v : PyVal) : Option String :=
  match v with
  | PyVal.vdict kvs =>
    match kvs.lookup "title" with
    | some (PyVal.vstr t) => some t
    | _ => none
  | _ => none

/-- Identifier entry of a candidate item, when the item is a dict carrying a
string under the paperId key. -/
def itemPaperIdStr (v : PyVal) : Option String :=
  match v with
  | PyVal.vdict kvs =>
    match kvs.lookup "paperId" with
    | some (PyVal.vstr s) => some s
    | _ => none
  | _ => none

/-- A well-formed candidate item as returned by the search endpoint: a dict
with string entries under title and paperId. -/
def wellFormedItem (v : PyVal) : Prop :=
  (itemTitleStr v).isSome ∧ (itemPaperIdStr v).isSome

/-- The match test the scan applies to one item, phrased on the optional
title entry (false when the entry is missing, in which case the scan itself
raises instead). -/
def matchItem (threshold : ℚ) (title : PyStr) (v : PyVal) : Bool :=
  match itemTitleStr v with
  | some t => isMatchTitle threshold title (normalize (codes t))
  | none => false

/-- Embedding of the candidate loop of get_paper_id_from_title (source lines
296-305).  Each item in order: its title is lowercased, punctuation-stripped
and whitespace-collapsed (the same three steps as normalize), is_match_title
is applied, and on the first match the stripped paperId is returned at once;
when no item matches, the empty string is returned.  A non-dict item, a
missing key, or a non-string entry raises (TypeError, KeyError, or the
AttributeError of calling a string method on a non-string). -/
def scanCandidates (threshold : ℚ) (title : PyStr) : List PyVal → Except PyExc PyStr
  | [] => Except.ok []
  | item :: rest =>
    match item with
    | PyVal.vdict kvs =>
      match kvs.lookup "title" with
      | some (PyVal.vstr t) =>
        if isMatchTitle threshold title (normalize (codes t)) then
          match kvs.lookup "paperId" with
          | some (PyVal.vstr pid) => Except.ok (pyStrip (codes pid))
          | some _ => Except.error PyExc.attributeError
          | none => Except.error PyExc.keyError
        else scanCandidates threshold title rest
      | some _ => Except.error PyExc.attributeError
      | none => Except.error PyExc.keyError
    | _ => Except.error PyExc.typeError

/-- Embedding of the post-loop part of get_paper_id_from_title (source lines
259-263 and 293-305) on a successfully fetched JSON content: the query is
pre-normalized (punctuation and whitespace only, no lowercasing), a missing
data field raises NoPaperFoundException, and the candidate list is scanned.
A data field that is not a list makes the loop header fail; the model raises
TypeError there (degenerate iterable shapes such as a string are not
modelled, no claim depends on them). -/
def resolveTitle (threshold : ℚ) (title : PyStr) (content : PyDict) : Except PyExc PyStr :=
  match content.lookup "data" with
  | none => Except.error PyExc.noPaperFound
  | some (PyVal.vlist items) => scanCandidates threshold (preQuery title) items
  | some _ => Except.error PyExc.typeError

/-! ### The typed records and the normalizer of get_paper_detail
(source lines 64-140 and 408-494) -/

/-- The Author dataclass (source lines 64-91). -/
structure Author where
  author_id : String
  author_name : String
  url : String
  affiliations : List PyVal
  paper_count : Int
  citation_count : Int
  hindex : Int

/-- The Paper dataclass (source lines 94-140).  The nested citation and
reference entries are papers themselves. -/
structure Paper where
  paper_id : String
  title : String
  abstract : String
  authors : List Author
  url : String
  venue : String
  publication_date : PyDateTime
  reference_count : Int
  citation_count : Int
  influential_citation_count : Int
  is_open_access : Bool
  fields_of_study : List PyVal
  citations : List Paper
  references : List Paper

/-- String content of a cleaned value.  For a field with a string default,
__clean provably returns a string, so the fallback never fires. -/
def asStrD : PyVal → String
  | PyVal.vstr s => s
  | _ => ""

/-- Integer content of a cleaned value.  For a field with an int default,
__clean returns an int or a bool (Python bool is an int subtype whose True
equals 1), so the fallback never fires. -/
def asIntD : PyVal → Int
  | PyVal.vint n => n
  | PyVal.vbool b => if b then 1 else 0
  | _ => 0

/-- Boolean content of a cleaned value.  For the isOpenAccess field (bool
default False), __clean returns a bool or an int (Python isinstance treats
bool as int); an int is kept by Python unchanged and acts by its
truthiness. -/
def asBoolD : PyVal → Bool
  | PyVal.vbool b => b
  | PyVal.vint n => n ≠ 0
  | _ => false

/-- List content of a cleaned value.  For a field with a list default,
__clean provably returns a list, so the fallback never fires. -/
def asListD : PyVal → List PyVal
  | PyVal.vlist xs => xs
  | _ => []

/-- Date content of a cleaned value.  For a field with a datetime default,
__clean provably returns a datetime, so the fallback never fires. -/
def asDateD : PyVal → PyDateTime
  | PyVal.vdate d => d
  | _ => date1900

/-- Dict content of a list element that the normalizer feeds back into
__clean.  Python raises for non-iterable elements there; the model reads
them as empty dicts, a corner no claim depends on (the relevant invariants
hold for every element either way). -/
def asDictD : PyVal → PyDict
  | PyVal.vdict kvs => kvs
  | _ => []

/-- Embedding of the author normalization of get_paper_detail (source lines
413-421, repeated at 438-446 and 468-476): field-by-field cleaning with the
declared defaults. -/
def mkAuthor (item : PyDict) : Author :=
  { author_id := asStrD (clean item "authorId" (PyVal.vstr ""))
  , author_name := asStrD (clean item "name" (PyVal.vstr ""))
  , url := asStrD (clean item "url" (PyVal.vstr ""))
  , affiliations := asListD (clean item "affiliations" (PyVal.vlist []))
  , paper_count := asIntD (clean item "paperCount" (PyVal.vint 0))
  , citation_count := asIntD (clean item "citationCount" (PyVal.vint 0))
  , hindex := asIntD (clean item "hIndex" (PyVal.vint 0)) }

/-- Embedding of the nested paper normalization of get_paper_detail (source
lines 433-459 for citations and 463-489 for references, identical): every
field cleaned with its default, and the citations and references of the
nested entry set to the empty list literally. -/
def mkNestedPaper (item : PyDict) : Paper :=
  { paper_id := asStrD (clean item "paperId" (PyVal.vstr ""))
  , title := asStrD (clean item "title" (PyVal.vstr ""))
  , abstract := asStrD (clean item "abstract" (PyVal.vstr ""))
  , authors := (asListD (clean item "authors" (PyVal.vlist []))).map
      (fun a => mkAuthor (asDictD a))
  , venue := asStrD (clean item "venue" (PyVal.vstr ""))
  , url := asStrD (clean item "url" (PyVal.vstr ""))
  , publication_date := asDateD (clean item "publicationDate" (PyVal.vdate date1900))
  , reference_count := asIntD (clean item "referenceCount" (PyVal.vint 0))
  , citation_count := asIntD (clean item "citationCount" (PyVal.vint 0))
  , influential_citation_count := asIntD (clean item "influentialCitationCount" (PyVal.vint 0))
  , is_open_access := asBoolD (clean item "isOpenAccess" (PyVal.vbool false))
  , fields_of_study := asListD (clean item "fieldsOfStudy" (PyVal.vlist []))
  , citations := []
  , references := [] }

/-- Embedding of the paper normalization of get_paper_detail (source lines
408-494): the top-level fields are cleaned with their defaults, the authors
list maps the author normalization, and the citations and references lists
map the nested paper normalization over the cleaned lists. -/
def mkPaperDetail (content : PyDict) : Paper :=
  { paper_id := asStrD (clean content "paperId" (PyVal.vstr ""))
  , title := asStrD (clean content "title" (PyVal.vstr ""))
  , abstract := asStrD (clean content "abstract" (PyVal.vstr ""))
  , authors := (asListD (clean content "authors" (PyVal.vlist []))).map
      (fun a => mkAuthor (asDictD a))
  , venue := asStrD (clean content "venue" (PyVal.vstr ""))
  , url := asStrD (clean content "url" (PyVal.vstr ""))
  , publication_date := asDateD (clean content "publicationDate" (PyVal.vdate date1900))
  , reference_count := asIntD (clean content "referenceCount" (PyVal.vint 0))
  , citation_count := asIntD (clean content "citationCount" (PyVal.vint 0))
  , influential_citation_count := asIntD (clean content "influentialCitationCount" (PyVal.vint 0))
  , is_open_access := asBoolD (clean content "isOpenAccess" (PyVal.vbool false))
  , fields_of_study := asListD (clean content "fieldsOfStudy" (PyVal.vlist []))
  , citations := (asListD (clean content "citations" (PyVal.vlist []))).map
      (fun it => mkNestedPaper (asDictD it))
  , references := (asListD (clean content "references" (PyVal.vlist []))).map
      (fun it => mkNestedPaper (asDictD it)) }

/-! ### The attribute surface of Paper and its hash (source lines 94-122) -/

/-- Names of the attributes a Paper instance exposes: the fourteen dataclass
fields of source lines 96-109, the year property of lines 111-113, and the
exact_match method of lines 124-140 (the dunder methods are looked up on the
type, not via instance attribute access).  No attribute is named ss_id. -/
def paperAttrNames : List String :=
  ["paper_id", "title", "abstract", "authors", "url", "venue",
   "publication_date", "reference_count", "citation_count",
   "influential_citation_count", "is_open_access", "fields_of_study",
   "citations", "references", "year", "exact_match"]

/-- Embedding of Paper.__hash__ (source lines 118-119): the body evaluates
hash(self.ss_id).  Reading an attribute that the instance does not expose
raises AttributeError; ss_id is not among the attributes of Paper (the
identifier field is named paper_id), so the read fails before the builtin
hash (whose value, if ever reached, is irrelevant here) is applied. -/
def paperHash (_p : Paper) : Except PyExc Int :=
  if "ss_id" ∈ paperAttrNames then Except.ok 0 else Except.error PyExc.attributeError

/-! ### Theorems -/

/-- C10: for every Paper value, evaluating its hash raises AttributeError,
because Paper.__hash__ reads the attribute ss_id and no attribute of that
name exists on Paper, whose identifier field is named paper_id; Paper values
can therefore never be hashed or used in sets or dict keys. -/
theorem paperHashAlwaysAttributeError :
    (∀ p : Paper, paperHash p = Except.error PyExc.attributeError) ∧
    "ss_id" ∉ paperAttrNames ∧ "paper_id" ∈ paperAttrNames :=
  ⟨fun _ => rfl, by decide, by decide⟩

/-- C2: classification of HTTPError inside __retry_and_wait.  An HTTPError
whose status code is not 429 and whose errno is not -3 is re-raised at once,
with no sleep and no further attempt; a 429 HTTPError or an errno -3
HTTPError, budget permitting, makes the controller perform the long fixed
30-second wait and return normally for another attempt. -/
theorem httpErrorClassification (maxRetryCount retry code : Int) (errno : Option Int) :
    (code ≠ 429 → errno ≠ some (-3) →
      retryAndWait maxRetryCount (PyExc.httpError code errno) retry =
        Except.error (PyExc.httpError code errno)) ∧
    (retry + 1 ≤ maxRetryCount → code = 429 ∨ errno = some (-3) →
      retryAndWait maxRetryCount (PyExc.httpError code errno) retry =
        Except.ok (retry + 1, WaitKind.long30)) := by
  constructor
  · intro h1 h2
    simp only [retryAndWait, PyExc.isHTTPError, PyExc.errnoOf, PyExc.codeOf]
    split_ifs <;> simp_all
  · intro hb hc
    simp only [retryAndWait, PyExc.isHTTPError, PyExc.errnoOf, PyExc.codeOf]
    split_ifs <;> first
      | rfl
      | omega
      | simp_all

/-- Witness for httpErrorClassification: a 404 HTTPError is re-raised, while
a 429 HTTPError and an errno -3 HTTPError produce the long wait and the
incremented counter. -/
theorem httpErrorClassificationWitness :
    retryAndWait 5 (PyExc.httpError 404 none) 0 = Except.error (PyExc.httpError 404 none) ∧
    retryAndWait 5 (PyExc.httpError 429 none) 0 = Except.ok (1, WaitKind.long30) ∧
    retryAndWait 5 (PyExc.httpError 500 (some (-3))) 0 = Except.ok (1, WaitKind.long30) :=
  ⟨(httpErrorClassification 5 0 404 none).1 (by decide) (by decide),
   (httpErrorClassification 5 0 429 none).2 (by norm_num) (Or.inl rfl),
   (httpErrorClassification 5 0 500 (some (-3))).2 (by norm_num) (Or.inr rfl)⟩

/-- C8 counterexample: with a bool default False and a present int value 7,
__clean copies the int, although the value kind (int) differs from the
default kind (bool) and the claim demands the default: Python isinstance
treats a bool default as an int default. -/
theorem cleanBoolDefaultCounterexample :
    clean [("k", PyVal.vint 7)] "k" (PyVal.vbool false) = PyVal.vint 7 ∧
    PyVal.vint 7 ≠ PyVal.vbool false :=
  ⟨rfl, fun h => by cases h⟩

/-- C8 (amended): for a default of kind string, list, mapping, int, float or
bool, __clean returns the source value when the key is present and the kinds
agree in the Python isinstance sense, in which bool counts as int (so an int
value is copied over a bool default and conversely), and otherwise returns
the default without raising; the date kind is excepted, since a present
truthy value is parsed rather than copied. -/
theorem cleanDefaulting (dic : PyDict) (key : String) (default : PyVal)
    (h : default.isDate = false) :
    clean dic key default =
      match dic.lookup key with
      | some v => if kindMatches default v then v else default
      | none => default := by
  unfold clean
  cases hv : dic.lookup key with
  | none => rfl
  | some v =>
    cases default <;> cases v <;>
      simp_all [kindMatches, PyVal.isList, PyVal.isDict, PyVal.isStr, PyVal.isDate,
        PyVal.isInstInt, PyVal.isFloat, PyVal.truthy]

/-- Witness for cleanDefaulting: a record missing the optional venue field
exposes the declared empty-string default. -/
theorem cleanDefaultingWitness :
    clean [("title", PyVal.vstr "t")] "venue" (PyVal.vstr "") = PyVal.vstr "" := by
  rw [cleanDefaulting [("title", PyVal.vstr "t")] "venue" (PyVal.vstr "") rfl]
  rfl

/-- C6: for every JSON content, every nested paper in the citations list and
in the references list of the paper built by get_paper_detail has an empty
citations list and an empty references list: nesting is capped at depth one
by the normalizer itself, which always supplies empty lists there. -/
theorem nestedListsEmpty (content : PyDict) :
    (∀ q ∈ (mkPaperDetail content).citations, q.citations = [] ∧ q.references = []) ∧
    (∀ q ∈ (mkPaperDetail content).references, q.citations = [] ∧ q.references = []) := by
  constructor <;>
  · intro q hq
    simp only [mkPaperDetail, List.mem_map] at hq
    obtain ⟨a, -, rfl⟩ := hq
    exact ⟨rfl, rfl⟩

/-- Witness for nestedListsEmpty at a concrete response carrying one
citation stub. -/
theorem nestedListsEmptyWitness :
    (mkNestedPaper []).citations = [] ∧ (mkNestedPaper []).references = [] :=
  (nestedListsEmpty [("citations", PyVal.vlist [PyVal.vdict []])]).1 (mkNestedPaper [])
    (List.mem_singleton.mpr rfl)

/-- Destructor for well-formed candidate items. -/
theorem wellFormed_destruct {v : PyVal} (h : wellFormedItem v) :
    ∃ kvs t pid, v = PyVal.vdict kvs ∧ kvs.lookup "title" = some (PyVal.vstr t) ∧
      kvs.lookup "paperId" = some (PyVal.vstr pid) := by
  obtain ⟨h1, h2⟩ := h
  rw [Option.isSome_iff_exists] at h1 h2
  obtain ⟨t, ht⟩ := h1
  obtain ⟨pid, hp⟩ := h2
  cases v with
  | vdict kvs =>
    refine ⟨kvs, t, pid, rfl, ?_, ?_⟩
    · simp only [itemTitleStr] at ht
      cases hl : kvs.lookup "title" with
      | none => rw [hl] at ht; simp at ht
      | some w =>
        rw [hl] at ht
        cases w <;> simp at ht
        subst ht
        rfl
    · simp only [itemPaperIdStr] at hp
      cases hl : kvs.lookup "paperId" with
      | none => rw [hl] at hp; simp at hp
      | some w =>
        rw [hl] at hp
        cases w <;> simp at hp
        subst hp
        rfl
  | vnull => simp [itemTitleStr] at ht
  | vbool b => simp [itemTitleStr] at ht
  | vint n => simp [itemTitleStr] at ht
  | vfloat q => simp [itemTitleStr] at ht
  | vstr s => simp [itemTitleStr] at ht
  | vdate d => simp [itemTitleStr] at ht
  | vlist xs => simp [itemTitleStr] at ht

/-- One step of the candidate scan on a dict with string title and paperId
entries. -/
theorem scanCandidates_cons_dict (threshold : ℚ) (title : PyStr) (kvs : PyDict)
    (rest : List PyVal) (t pid : String)
    (ht : kvs.lookup "title" = some (PyVal.vstr t))
    (hp : kvs.lookup "paperId" = some (PyVal.vstr pid)) :
    scanCandidates threshold title (PyVal.vdict kvs :: rest) =
      if isMatchTitle threshold title (normalize (codes t)) then
        Except.ok (pyStrip (codes pid))
      else scanCandidates threshold title rest := by
  simp only [scanCandidates, ht, hp]

/-- The candidate scan returns the empty-string sentinel when every item is
well-formed and none matches. -/
theorem scanCandidates_no_match (threshold : ℚ) (title : PyStr) :
    ∀ items : List PyVal, (∀ v ∈ items, wellFormedItem v) →
      (∀ v ∈ items, matchItem threshold title v = false) →
      scanCandidates threshold title items = Except.ok [] := by
  intro items
  induction items with
  | nil => intro _ _; rfl
  | cons item rest ih =>
    intro hwf hnm
    obtain ⟨kvs, t, pid, rfl, ht, hp⟩ := wellFormed_destruct (hwf _ (List.mem_cons_self _ _))
    rw [scanCandidates_cons_dict _ _ _ _ _ _ ht hp]
    have hm : matchItem threshold title (PyVal.vdict kvs) =
        isMatchTitle threshold title (normalize (codes t)) := by
      simp [matchItem, itemTitleStr, ht]
    have hfalse : isMatchTitle threshold title (normalize (codes t)) = false := by
      rw [← hm]; exact hnm _ (List.mem_cons_self _ _)
    rw [hfalse]
    simp only [Bool.false_eq_true, if_false]
    exact ih (fun v hv => hwf v (List.mem_cons_of_mem _ hv))
      (fun v hv => hnm v (List.mem_cons_of_mem _ hv))

/-- LCS of a token sequence with itself has full length, given enough fuel. -/
theorem lcsAux_self (l : List PyStr) :
    ∀ fuel, l.length ≤ fuel → lcsAux fuel l l = l.length := by
  induction l with
  | nil => intro fuel _; cases fuel <;> rfl
  | cons a as ih =>
    intro fuel hf
    cases fuel with
    | zero => simp at hf
    | succ n =>
      have hstep : lcsAux (n + 1) (a :: as) (a :: as) = 1 + lcsAux n as as := by
        simp [lcsAux]
      rw [hstep, ih n (by simpa using hf)]
      simp [Nat.add_comm]

/-- LCS of a token sequence with itself has full length. -/
theorem lcsLen_self (l : List PyStr) : lcsLen l l = l.length :=
  lcsAux_self l _ (by omega)

/-- The similarity of two strings with the same nonempty token sequence is
the maximal score 1. -/
theorem rougeL_eq_one (x y : PyStr) (heq : tokensOf x = tokensOf y)
    (h : ¬ (tokensOf x).isEmpty) : rougeL x y = 1 := by
  have hlen : (tokensOf x).length ≠ 0 := by
    cases hx : tokensOf x with
    | nil => rw [hx] at h; simp at h
    | cons a l => simp
  simp only [rougeL, ← heq, lcsLen_self]
  rw [if_neg (by simp [h])]
  have hq : ((tokensOf x).length : ℚ) ≠ 0 := by exact_mod_cast hlen
  rw [div_self hq]
  norm_num

/-- The similarity of any string with itself is the maximal score 1, as long
as the string has at least one token. -/
theorem rougeL_self (x : PyStr) (h : ¬ (tokensOf x).isEmpty) : rougeL x x = 1 :=
  rougeL_eq_one x x rfl h

/-- The similarity is zero when the token sequences share no common
subsequence (LCS length zero). -/
theorem rougeL_zero (x y : PyStr) (h : lcsLen (tokensOf x) (tokensOf y) = 0) :
    rougeL x y = 0 := by
  simp only [rougeL, h]
  split_ifs with h1 h2 <;> simp_all

/-- A title always matches itself at any threshold strictly below 1, the
score being exactly 1. -/
theorem isMatchTitle_self (threshold : ℚ) (t : PyStr)
    (h : ¬ (tokensOf (normalize t)).isEmpty) (hlt : threshold < 1) :
    isMatchTitle threshold t t = true := by
  simp only [isMatchTitle, rougeL_self (normalize t) h]
  exact decide_eq_true hlt

/-- A candidate whose tokens have no overlap with the query never matches at
a nonnegative threshold: its score is zero. -/
theorem isMatchTitle_no_overlap (threshold : ℚ) (a b : PyStr) (hθ : 0 ≤ threshold)
    (h : lcsLen (tokensOf (normalize a)) (tokensOf (normalize b)) = 0) :
    isMatchTitle threshold a b = false := by
  simp only [isMatchTitle, rougeL_zero _ _ h]
  exact decide_eq_false (not_lt.mpr hθ)

/-- C4: on a well-formed candidate list the scan of get_paper_id_from_title
returns the stripped identifier of the first candidate, in API order, whose
similarity score strictly exceeds the threshold (the empty string when none
does), and the outcome never depends on the candidates after the first
match: they are neither scored nor considered. -/
theorem firstMatchWins (threshold : ℚ) (title : PyStr) (items : List PyVal)
    (hwf : ∀ v ∈ items, wellFormedItem v) :
    scanCandidates threshold title items =
      Except.ok
        (match items.find? (matchItem threshold title) with
         | some v => pyStrip (codes ((itemPaperIdStr v).getD ""))
         | none => []) ∧
    ∀ xs ys zs : List PyVal, (∀ v ∈ xs, wellFormedItem v) →
      (∃ v ∈ xs, matchItem threshold title v = true) →
      scanCandidates threshold title (xs ++ ys) = scanCandidates threshold title (xs ++ zs) := by
  constructor
  · induction items with
    | nil => rfl
    | cons item rest ih =>
      obtain ⟨kvs, t, pid, rfl, ht, hp⟩ := wellFormed_destruct (hwf _ (List.mem_cons_self _ _))
      rw [scanCandidates_cons_dict _ _ _ _ _ _ ht hp]
      have hm : matchItem threshold title (PyVal.vdict kvs) =
          isMatchTitle threshold title (normalize (codes t)) := by
        simp [matchItem, itemTitleStr, ht]
      by_cases hc : isMatchTitle threshold title (normalize (codes t)) = true
      · rw [hc, List.find?_cons_of_pos _ (by rw [hm]; exact hc)]
        simp [itemPaperIdStr, hp]
      · have hc' : isMatchTitle threshold title (normalize (codes t)) = false := by
          simpa using hc
        rw [hc', List.find?_cons_of_neg _ (by rw [hm, hc']; simp)]
        simp only [Bool.false_eq_true, if_false]
        exact ih (fun v hv => hwf v (List.mem_cons_of_mem _ hv))
  · intro xs ys zs hwfx hex
    induction xs with
    | nil => simp at hex
    | cons x xs' ih =>
      obtain ⟨kvs, t, pid, rfl, ht, hp⟩ := wellFormed_destruct (hwfx _ (List.mem_cons_self _ _))
      rw [List.cons_append, List.cons_append,
        scanCandidates_cons_dict _ _ _ _ _ _ ht hp,
        scanCandidates_cons_dict _ _ _ _ _ _ ht hp]
      by_cases hc : isMatchTitle threshold title (normalize (codes t)) = true
      · rw [hc]
        simp
      · have hc' : isMatchTitle threshold title (normalize (codes t)) = false := by
          simpa using hc
        rw [hc']
        simp only [Bool.false_eq_true, if_false]
        apply ih
        · intro v hv; exact hwfx v (List.mem_cons_of_mem _ hv)
        · obtain ⟨v, hv, hmv⟩ := hex
          rcases List.mem_cons.mp hv with rfl | hv'
          · simp [matchItem, itemTitleStr, ht, hc'] at hmv
          · exact ⟨v, hv', hmv⟩

/-- Witness for firstMatchWins: a single well-formed candidate whose text is
the query itself is accepted and its stripped identifier is returned. -/
theorem firstMatchWinsWitness :
    scanCandidates 0 (preQuery (codes "Attention Is All You Need"))
      [PyVal.vdict [("title", PyVal.vstr "Attention Is All You Need"),
                    ("paperId", PyVal.vstr " abc123 ")]] =
      Except.ok (pyStrip (codes " abc123 ")) := by
  have hm : matchItem 0 (preQuery (codes "Attention Is All You Need"))
      (PyVal.vdict [("title", PyVal.vstr "Attention Is All You Need"),
                    ("paperId", PyVal.vstr " abc123 ")]) = true := by
    show isMatchTitle 0 (preQuery (codes "Attention Is All You Need"))
      (normalize (codes "Attention Is All You Need")) = true
    simp only [isMatchTitle]
    rw [rougeL_eq_one _ _ (by decide) (by decide)]
    decide
  rw [(firstMatchWins 0 (preQuery (codes "Attention Is All You Need"))
    [PyVal.vdict [("title", PyVal.vstr "Attention Is All You Need"),
                  ("paperId", PyVal.vstr " abc123 ")]]
    (by intro v hv; rw [List.mem_singleton] at hv; subst hv
        exact ⟨by decide, by decide⟩)).1]
  rw [List.find?_cons_of_pos _ hm]
  rfl

/-- C5: when the response carries a data list of well-formed candidates and
no candidate scores above the threshold, get_paper_id_from_title returns the
empty string as a no-confident-match sentinel and raises no exception. -/
theorem noMatchEmptyString (threshold : ℚ) (title : PyStr) (content : PyDict)
    (items : List PyVal)
    (hdata : content.lookup "data" = some (PyVal.vlist items))
    (hwf : ∀ v ∈ items, wellFormedItem v)
    (hnm : ∀ v ∈ items, matchItem threshold (preQuery title) v = false) :
    resolveTitle threshold title content = Except.ok [] := by
  unfold resolveTitle
  rw [hdata]
  exact scanCandidates_no_match threshold (preQuery title) items hwf hnm

/-- Witness for noMatchEmptyString: one well-formed candidate sharing no
token with the query produces the empty-string result. -/
theorem noMatchEmptyStringWitness :
    resolveTitle 0 (codes "Attention Is All You Need")
      [("data", PyVal.vlist [PyVal.vdict [("title", PyVal.vstr "Something Else Entirely"),
        ("paperId", PyVal.vstr "x")]])] = Except.ok [] := by
  apply noMatchEmptyString 0 (codes "Attention Is All You Need")
    [("data", PyVal.vlist [PyVal.vdict [("title", PyVal.vstr "Something Else Entirely"),
      ("paperId", PyVal.vstr "x")]])]
    [PyVal.vdict [("title", PyVal.vstr "Something Else Entirely"),
      ("paperId", PyVal.vstr "x")]] rfl
  · intro v hv; rw [List.mem_singleton] at hv; subst hv
    exact ⟨by decide, by decide⟩
  · intro v hv; rw [List.mem_singleton] at hv; subst hv
    show isMatchTitle 0 (preQuery (codes "Attention Is All You Need"))
      (normalize (codes "Something Else Entirely")) = false
    exact isMatchTitle_no_overlap 0 _ _ le_rfl (by decide)

/-- When the incremented counter stays within the budget and the exception
is retryable, __retry_and_wait sleeps and returns the incremented counter. -/
theorem retryAndWait_ok (m r : Int) (e : PyExc) (hb : r + 1 ≤ m)
    (hr : retryable e = true) :
    ∃ w, retryAndWait m e r = Except.ok (r + 1, w) := by
  simp only [retryAndWait]
  split_ifs with h1 h2 h3 h4
  · omega
  · exact ⟨_, rfl⟩
  · exact ⟨_, rfl⟩
  · cases e <;> simp_all [retryable, PyExc.isHTTPError, PyExc.errnoOf, PyExc.codeOf]
  · exact ⟨_, rfl⟩

/-- When every attempt fails with a retryable exception, the loop spends the
whole budget: it issues exactly max_retry_count attempts and ends in the
operation-specific exhaustion error. -/
theorem attemptLoopAux_exhaust (maxR : Int) (exh : PyExc)
    (att : Nat → Except PyExc PyDict)
    (hatt : ∀ i, ∃ e, att i = Except.error e ∧ retryable e = true) :
    ∀ fuel retry : Nat, maxR.toNat ≤ retry + fuel → (retry : Int) < maxR →
      attemptLoopAux maxR exh att fuel retry = ⟨Except.error exh, maxR.toNat⟩ := by
  intro fuel
  induction fuel with
  | zero => intro retry h1 h2; exfalso; omega
  | succ n ih =>
    intro retry h1 h2
    obtain ⟨e, he, hre⟩ := hatt retry
    obtain ⟨w, hw⟩ := retryAndWait_ok maxR (retry : Int) e (by omega) hre
    simp only [attemptLoopAux, he, hw]
    rw [if_pos h2]
    by_cases h3 : maxR ≤ (retry : Int) + 1
    · rw [if_pos h3]
      have h4 : maxR.toNat = retry + 1 := by omega
      rw [h4]
    · rw [if_neg h3]
      exact ih (retry + 1) (by omega) (by omega)

/-- C1 (amended to a positive budget): for max_retry_count = N with N at
least 1, when every attempt fails with a retryable exception, each of the
four operations issues exactly N attempts and then raises its exhaustion
error, so attempt N+1 never occurs; and whenever the incremented retry
counter would exceed N, __retry_and_wait re-raises the pending exception
instead of sleeping again.  With N = 0 no exhaustion error is raised at all
(see the counterexample). -/
theorem retryBudgetRespected (maxR : Int) (att : Nat → Except PyExc PyDict)
    (hpos : 1 ≤ maxR)
    (hatt : ∀ i, ∃ e, att i = Except.error e ∧ retryable e = true) :
    getPaperIdLoop maxR att = ⟨Except.error PyExc.exceedMaxRetryCount, maxR.toNat⟩ ∧
    getPaperDetailLoop maxR att = ⟨Except.error PyExc.exceedMaxRetryCount, maxR.toNat⟩ ∧
    getAuthorDetailLoop maxR att = ⟨Except.error PyExc.plainException, maxR.toNat⟩ ∧
    getAuthorByNameLoop maxR att = ⟨Except.error PyExc.plainException, maxR.toNat⟩ ∧
    ∀ (ex : PyExc) (r : Int), maxR < r + 1 → retryAndWait maxR ex r = Except.error ex := by
  have h0 : ((0 : Nat) : Int) < maxR := by exact_mod_cast hpos
  refine ⟨?_, ?_, ?_, ?_, ?_⟩
  · exact attemptLoopAux_exhaust maxR _ att hatt _ 0 (by omega) h0
  · exact attemptLoopAux_exhaust maxR _ att hatt _ 0 (by omega) h0
  · exact attemptLoopAux_exhaust maxR _ att hatt _ 0 (by omega) h0
  · exact attemptLoopAux_exhaust maxR _ att hatt _ 0 (by omega) h0
  · intro ex r hr
    simp only [retryAndWait]
    rw [if_pos hr]

/-- Witness for retryBudgetRespected: with budget 2 and attempts that always
fail with URLError, both loop flavors stop after exactly 2 attempts with
their exhaustion errors. -/
theorem retryBudgetRespectedWitness :
    getPaperIdLoop 2 (fun _ => Except.error PyExc.urlError) =
      ⟨Except.error PyExc.exceedMaxRetryCount, 2⟩ ∧
    getAuthorDetailLoop 2 (fun _ => Except.error PyExc.urlError) =
      ⟨Except.error PyExc.plainException, 2⟩ := by
  have h := retryBudgetRespected 2 (fun _ => Except.error PyExc.urlError) (by norm_num)
    (fun _ => ⟨PyExc.urlError, rfl, rfl⟩)
  exact ⟨h.1, h.2.2.1⟩

/-- C1 counterexample: configured with max_retry_count = 0 and every attempt
failing, the operation makes 0 attempts but raises UnboundLocalError rather
than an exhaustion error: the loop body never runs and the response variable
is unbound afterwards.  The claim, which promises an exhaustion error after
exactly N attempts for every configured N, fails at N = 0. -/
theorem retryBudgetZeroCounterexample :
    getPaperIdLoop 0 (fun _ => Except.error PyExc.urlError) =
      ⟨Except.error PyExc.unboundLocalError, 0⟩ ∧
    (getPaperIdLoop 0 (fun _ => Except.error PyExc.urlError)).result ≠
      Except.error PyExc.exceedMaxRetryCount := by
  refine ⟨rfl, ?_⟩
  intro h
  have hq : (getPaperIdLoop 0 (fun _ => Except.error PyExc.urlError)).result =
      Except.error PyExc.unboundLocalError := rfl
  rw [hq] at h
  exact PyExc.noConfusion (Except.error.inj h)

/-- C9 (amended): when the retry budget is exhausted without a successful
response, get_paper_id_from_title and get_paper_detail raise the dedicated
typed ExceedMaxRetryCountException, which is distinct from the
NoPaperFound and NoAuthorFound errors; get_author_detail and
get_author_detail_by_name, however, raise a bare untyped Exception carrying
the same message, not the dedicated typed error. -/
theorem exhaustionErrorTypes (maxR : Int) (att : Nat → Except PyExc PyDict)
    (hpos : 1 ≤ maxR)
    (hatt : ∀ i, ∃ e, att i = Except.error e ∧ retryable e = true) :
    (getPaperIdLoop maxR att).result = Except.error PyExc.exceedMaxRetryCount ∧
    (getPaperDetailLoop maxR att).result = Except.error PyExc.exceedMaxRetryCount ∧
    (getAuthorDetailLoop maxR att).result = Except.error PyExc.plainException ∧
    (getAuthorByNameLoop maxR att).result = Except.error PyExc.plainException ∧
    PyExc.exceedMaxRetryCount ≠ PyExc.noPaperFound ∧
    PyExc.exceedMaxRetryCount ≠ PyExc.noAuthorFound ∧
    PyExc.plainException ≠ PyExc.exceedMaxRetryCount := by
  have h0 : ((0 : Nat) : Int) < maxR := by exact_mod_cast hpos
  refine ⟨?_, ?_, ?_, ?_, by decide, by decide, by decide⟩
  · show (attemptLoopAux maxR PyExc.exceedMaxRetryCount att (maxR.toNat + 1) 0).result = _
    rw [attemptLoopAux_exhaust maxR _ att hatt _ 0 (by omega) h0]
  · show (attemptLoopAux maxR PyExc.exceedMaxRetryCount att (maxR.toNat + 1) 0).result = _
    rw [attemptLoopAux_exhaust maxR _ att hatt _ 0 (by omega) h0]
  · show (attemptLoopAux maxR PyExc.plainException att (maxR.toNat + 1) 0).result = _
    rw [attemptLoopAux_exhaust maxR _ att hatt _ 0 (by omega) h0]
  · show (attemptLoopAux maxR PyExc.plainException att (maxR.toNat + 1) 0).result = _
    rw [attemptLoopAux_exhaust maxR _ att hatt _ 0 (by omega) h0]

/-- Witness for exhaustionErrorTypes with budget 1 and URLError attempts. -/
theorem exhaustionErrorTypesWitness :
    (getPaperIdLoop 1 (fun _ => Except.error PyExc.urlError)).result =
      Except.error PyExc.exceedMaxRetryCount ∧
    (getAuthorByNameLoop 1 (fun _ => Except.error PyExc.urlError)).result =
      Except.error PyExc.plainException := by
  have h := exhaustionErrorTypes 1 (fun _ => Except.error PyExc.urlError) (by norm_num)
    (fun _ => ⟨PyExc.urlError, rfl, rfl⟩)
  exact ⟨h.1, h.2.2.2.1⟩

/-- C9 counterexample: get_author_detail, its budget of 1 exhausted by a
failing attempt, raises a bare Exception and not the dedicated typed
ExceedMaxRetryCountException the claim names for all four operations. -/
theorem authorExhaustionUntypedCounterexample :
    (getAuthorDetailLoop 1 (fun _ => Except.error PyExc.urlError)).result =
      Except.error PyExc.plainException ∧
    (getAuthorDetailLoop 1 (fun _ => Except.error PyExc.urlError)).result ≠
      Except.error PyExc.exceedMaxRetryCount := by
  refine ⟨rfl, ?_⟩
  intro h
  have hq : (getAuthorDetailLoop 1 (fun _ => Except.error PyExc.urlError)).result =
      Except.error PyExc.plainException := rfl
  rw [hq] at h
  exact PyExc.noConfusion (Except.error.inj h)

/-- Lowercasing is idempotent on codepoints. -/
theorem lowerNat_idem (n : Nat) : lowerNat (lowerNat n) = lowerNat n := by
  simp only [lowerNat]
  split_ifs <;> omega

/-- Lowercasing commutes with punctuation replacement on codepoints: the
punctuation ranges and the uppercase range are disjoint, and a space is
neither. -/
theorem lowerNat_punctNat (n : Nat) : lowerNat (punctNat n) = punctNat (lowerNat n) := by
  simp only [lowerNat, punctNat, pyPunct]
  split_ifs <;> simp_all <;> omega

/-- Lowercasing preserves whitespace-ness of a codepoint. -/
theorem pySpace_lowerNat (n : Nat) : pySpace (lowerNat n) = pySpace n := by
  simp only [pySpace, lowerNat]
  split_ifs with h
  · rw [decide_eq_decide]
    omega
  · rfl

/-- Lowercasing a string commutes with the whitespace-collapsing pass, since
it moves no codepoint into or out of the whitespace class. -/
theorem lowerStep_subWS (k : Nat) (b : Bool) (l : PyStr) :
    lowerStep (subWS k b l) = subWS k b (lowerStep l) := by
  induction l generalizing k b with
  | nil => cases b <;> rfl
  | cons c cs ih =>
    have h32 : lowerNat 32 = 32 := rfl
    cases b with
    | true =>
      simp only [subWS, lowerStep, List.map_cons, pySpace_lowerNat]
      by_cases hc : pySpace c = true
      · rw [if_pos hc, if_pos hc]
        exact ih k true
      · rw [if_neg hc, if_neg hc]
        simp only [lowerStep] at ih
        simp [ih k false]
    | false =>
      simp only [subWS, lowerStep, List.map_cons, pySpace_lowerNat]
      by_cases hc : pySpace c = true
      · rw [if_pos hc, if_pos hc]
        cases k with
        | zero =>
          cases cs with
          | nil => rfl
          | cons c2 cs' =>
            simp only [List.map_cons]
            simp only [lowerStep] at ih
            simp [ih 0 false]
        | succ k' =>
          cases cs with
          | nil => rfl
          | cons c2 cs' =>
            simp only [List.map_cons, pySpace_lowerNat]
            by_cases hc2 : pySpace c2 = true
            · rw [if_pos hc2, if_pos hc2]
              simp only [lowerStep] at ih
              simp [ih k' true, h32]
            · rw [if_neg hc2, if_neg hc2]
              simp only [lowerStep] at ih
              simp [ih (k' + 1) false]
      · rw [if_neg hc, if_neg hc]
        simp only [lowerStep] at ih
        simp [ih k false]

/-- Lowercasing a string commutes with the punctuation-replacement pass. -/
theorem lowerStep_punctStep (l : PyStr) :
    lowerStep (punctStep l) = punctStep (lowerStep l) := by
  simp only [lowerStep, punctStep, List.map_map]
  congr 1
  funext n
  exact lowerNat_punctNat n

/-- Lowercasing a string is idempotent. -/
theorem lowerStep_idem (l : PyStr) : lowerStep (lowerStep l) = lowerStep l := by
  simp only [lowerStep, List.map_map]
  congr 1
  funext n
  exact lowerNat_idem n

/-- The full normalization applied to the pre-normalized query (punctuation
and collapsing, no lowercasing) agrees with the full normalization applied
to the fully normalized title: lowercasing commutes with the other passes
and is idempotent. -/
theorem normalize_preQuery (x : PyStr) : normalize (preQuery x) = normalize (normalize x) := by
  unfold normalize preQuery
  rw [lowerStep_subWS, lowerStep_punctStep, lowerStep_subWS, lowerStep_punctStep,
    lowerStep_idem]

/-- C3 (amended): a candidate with text identical to the queried title gets
the maximal similarity score, exactly 1, and is accepted at every threshold
strictly below 1: is_match_title returns True and the candidate scan of
get_paper_id_from_title returns its stripped identifier.  At threshold
exactly 1.0 the strict comparison rejects even the identical candidate (see
the counterexample), so success extends only to thresholds strictly below
the maximum. -/
theorem identicalTitleResolution (threshold : ℚ) (ttl pid : String)
    (hθ : threshold < 1)
    (htok : ¬ (tokensOf (normalize (preQuery (codes ttl)))).isEmpty) :
    rougeL (normalize (preQuery (codes ttl))) (normalize (normalize (codes ttl))) = 1 ∧
    isMatchTitle threshold (preQuery (codes ttl)) (normalize (codes ttl)) = true ∧
    scanCandidates threshold (preQuery (codes ttl))
      [PyVal.vdict [("title", PyVal.vstr ttl), ("paperId", PyVal.vstr pid)]] =
      Except.ok (pyStrip (codes pid)) := by
  have hsc : rougeL (normalize (preQuery (codes ttl)))
      (normalize (normalize (codes ttl))) = 1 :=
    rougeL_eq_one _ _ (by rw [normalize_preQuery]) htok
  have hmt : isMatchTitle threshold (preQuery (codes ttl)) (normalize (codes ttl)) = true := by
    simp only [isMatchTitle, hsc]
    exact decide_eq_true hθ
  refine ⟨hsc, hmt, ?_⟩
  rw [scanCandidates_cons_dict threshold (preQuery (codes ttl))
    [("title", PyVal.vstr ttl), ("paperId", PyVal.vstr pid)] [] ttl pid rfl rfl, hmt]
  simp

/-- Witness for identicalTitleResolution at threshold 0 on a concrete
title. -/
theorem identicalTitleResolutionWitness :
    isMatchTitle 0 (preQuery (codes "Attention Is All You Need"))
      (normalize (codes "Attention Is All You Need")) = true ∧
    scanCandidates 0 (preQuery (codes "Attention Is All You Need"))
      [PyVal.vdict [("title", PyVal.vstr "Attention Is All You Need"),
                    ("paperId", PyVal.vstr "204e3073")]] =
      Except.ok (pyStrip (codes "204e3073")) := by
  have h := identicalTitleResolution 0 "Attention Is All You Need" "204e3073"
    (by norm_num) (by decide)
  exact ⟨h.2.1, h.2.2⟩

/-- C3 counterexample: at threshold exactly 1.0 an identical candidate is
rejected although its score is exactly the maximum 1: is_match_title
compares strictly, so resolution fails at the threshold equal to the
maximum, contradicting the claim for threshold 1.0. -/
theorem thresholdOneCounterexample :
    rougeL (normalize (codes "a b")) (normalize (codes "a b")) = 1 ∧
    isMatchTitle 1 (codes "a b") (codes "a b") = false := by
  have h1 : rougeL (normalize (codes "a b")) (normalize (codes "a b")) = 1 :=
    rougeL_self _ (by decide)
  refine ⟨h1, ?_⟩
  simp only [isMatchTitle, h1]
  exact decide_eq_false (lt_irrefl (1 : ℚ))

/-- One scanning step: a non-whitespace character is copied in the false
state, at any budget. -/
theorem subWS_cons_nonspace (k : Nat) (c : Nat) (rest : PyStr) (hc : pySpace c = false) :
    subWS k false (c :: rest) = c :: subWS k false rest := by
  cases rest <;> simp [subWS, hc]

/-- One scanning step: a whitespace character followed by a non-whitespace
character (or by nothing) is a run of length one, copied at any budget. -/
theorem subWS_cons_single (k : Nat) (c : Nat) (rest : PyStr)
    (hc : pySpace c = true) (hrest : headSpace rest = false) :
    subWS k false (c :: rest) = c :: subWS k false rest := by
  cases rest with
  | nil => cases k <;> simp [subWS, hc]
  | cons c2 t =>
    have hc2 : pySpace c2 = false := hrest
    cases k <;> simp [subWS, hc, hc2]

/-- One scanning step: two adjacent whitespace characters start a run; with
budget left, the replacement space is emitted and the run tail is dropped in
the true state. -/
theorem subWS_cons_collapse (k' : Nat) (c c2 : Nat) (t : PyStr)
    (hc : pySpace c = true) (hc2 : pySpace c2 = true) :
    subWS (k' + 1) false (c :: c2 :: t) = 32 :: subWS k' true (c2 :: t) := by
  simp [subWS, hc, hc2]

/-- One scanning step in the true state: whitespace is dropped. -/
theorem subWS_true_space (k : Nat) (c : Nat) (cs : PyStr) (hc : pySpace c = true) :
    subWS k true (c :: cs) = subWS k true cs := by
  simp [subWS, hc]

/-- One scanning step in the true state: a non-whitespace character ends the
run and is copied, returning to the false state. -/
theorem subWS_true_nonspace (k : Nat) (c : Nat) (cs : PyStr) (hc : pySpace c = false) :
    subWS k true (c :: cs) = c :: subWS k false cs := by
  simp [subWS, hc]

/-- With replacement budget 0, the collapsing pass copies its input. -/
theorem subWS_zero (l : PyStr) : subWS 0 false l = l := by
  induction l with
  | nil => rfl
  | cons c cs ih =>
    by_cases hc : pySpace c = true
    · simp only [subWS, hc, if_true]
      show c :: subWS 0 false cs = c :: cs
      rw [ih]
    · rw [subWS_cons_nonspace 0 c cs (by simpa using hc), ih]

/-- Whitespace-ness of the two basic codepoints of the pat strings. -/
theorem pySpace97 : pySpace 97 = false := rfl

/-- The space codepoint is whitespace. -/
theorem pySpace32 : pySpace 32 = true := rfl

/-- On the pat family the two scanning states agree, the head being a
letter. -/
theorem subWS_true_pat (k j : Nat) : subWS k true (pat j) = subWS k false (pat j) := by
  cases j with
  | zero => rfl
  | succ j' =>
    show subWS k true (97 :: _) = subWS k false (97 :: _)
    rw [subWS_true_nonspace k 97 _ pySpace97, subWS_cons_nonspace k 97 _ pySpace97]

/-- With budget n, the first n runs of pat (n + m) collapse and the rest is
copied untouched. -/
theorem subWS_pat_split (n : Nat) : ∀ m, subWS n false (pat (n + m)) = colPat n ++ pat m := by
  induction n with
  | zero =>
    intro m
    rw [Nat.zero_add, subWS_zero]
    rfl
  | succ n ih =>
    intro m
    have harr : n + 1 + m = (n + m) + 1 := by omega
    rw [harr]
    show subWS (n + 1) false (97 :: 32 :: 32 :: pat (n + m)) = _
    rw [subWS_cons_nonspace _ 97 _ pySpace97,
      subWS_cons_collapse n 32 32 _ pySpace32 pySpace32,
      subWS_true_space n 32 _ pySpace32, subWS_true_pat, ih m]
    rfl

/-- With budget at least m, every run of pat m collapses. -/
theorem subWS_pat_full (m : Nat) : ∀ k, m ≤ k → subWS k false (pat m) = colPat m := by
  induction m with
  | zero => intro k _; cases k <;> rfl
  | succ m ih =>
    intro k hk
    cases k with
    | zero => omega
    | succ k' =>
      show subWS (k' + 1) false (97 :: 32 :: 32 :: pat m) = _
      rw [subWS_cons_nonspace _ 97 _ pySpace97,
        subWS_cons_collapse k' 32 32 _ pySpace32 pySpace32,
        subWS_true_space k' 32 _ pySpace32, subWS_true_pat, ih k' (by omega)]
      rfl

/-- The collapsing pass distributes over an already collapsed prefix of the
colPat form followed by a pat tail. -/
theorem subWS_colPat_append (n : Nat) :
    ∀ k m, subWS k false (colPat n ++ pat m) = colPat n ++ subWS k false (pat m) := by
  induction n with
  | zero => intro k m; rfl
  | succ n ih =>
    intro k m
    have hhead : headSpace (colPat n ++ pat m) = false := by
      cases n with
      | zero =>
        cases m with
        | zero => rfl
        | succ m' => rfl
      | succ n' => rfl
    show subWS k false (97 :: 32 :: (colPat n ++ pat m)) = _
    rw [subWS_cons_nonspace _ 97 _ pySpace97, subWS_cons_single k 32 _ pySpace32 hhead,
      ih k m]
    rfl

/-- Length of the pat family. -/
theorem pat_length (k : Nat) : (pat k).length = 3 * k := by
  induction k with
  | zero => rfl
  | succ n ih => simp [pat, ih]; omega

/-- Length of the colPat family. -/
theorem colPat_length (k : Nat) : (colPat k).length = 2 * k := by
  induction k with
  | zero => rfl
  | succ n ih => simp [colPat, ih]; omega

/-- Lowercasing distributes over appended strings. -/
theorem lowerStep_append (a b : PyStr) : lowerStep (a ++ b) = lowerStep a ++ lowerStep b :=
  List.map_append lowerNat a b

/-- Punctuation replacement distributes over appended strings. -/
theorem punctStep_append (a b : PyStr) : punctStep (a ++ b) = punctStep a ++ punctStep b :=
  List.map_append punctNat a b

/-- Lowercasing fixes the pat strings. -/
theorem lowerStep_pat (k : Nat) : lowerStep (pat k) = pat k := by
  induction k with
  | zero => rfl
  | succ n ih =>
    simp only [pat, lowerStep, List.map_cons]
    rw [show lowerNat 97 = 97 from rfl, show lowerNat 32 = 32 from rfl]
    simp only [lowerStep] at ih
    rw [ih]

/-- Punctuation replacement fixes the pat strings. -/
theorem punctStep_pat (k : Nat) : punctStep (pat k) = pat k := by
  induction k with
  | zero => rfl
  | succ n ih =>
    simp only [pat, punctStep, List.map_cons]
    rw [show punctNat 97 = 97 from rfl, show punctNat 32 = 32 from rfl]
    simp only [punctStep] at ih
    rw [ih]

/-- Lowercasing fixes the colPat strings. -/
theorem lowerStep_colPat (k : Nat) : lowerStep (colPat k) = colPat k := by
  induction k with
  | zero => rfl
  | succ n ih =>
    simp only [colPat, lowerStep, List.map_cons]
    rw [show lowerNat 97 = 97 from rfl, show lowerNat 32 = 32 from rfl]
    simp only [lowerStep] at ih
    rw [ih]

/-- Punctuation replacement fixes the colPat strings. -/
theorem punctStep_colPat (k : Nat) : punctStep (colPat k) = colPat k := by
  induction k with
  | zero => rfl
  | succ n ih =>
    simp only [colPat, punctStep, List.map_cons]
    rw [show punctNat 97 = 97 from rfl, show punctNat 32 = 32 from rfl]
    simp only [punctStep] at ih
    rw [ih]

/-- C7 counterexample: the normalization of is_match_title is not idempotent
on all of its own outputs.  The string of 1001 repetitions of a letter and a
double space has 1001 collapsible runs; the regex sub is capped at count
1000, so the first normalization leaves the last double space intact, and
the second normalization collapses it, producing a strictly shorter
string. -/
theorem normalizeNotIdempotentCounterexample :
    normalize (normalize (pat 1001)) ≠ normalize (pat 1001) := by
  have h1 : normalize (pat 1001) = colPat 1000 ++ pat 1 := by
    unfold normalize
    rw [lowerStep_pat, punctStep_pat, show (1001 : Nat) = 1000 + 1 from rfl,
      subWS_pat_split]
  have h2 : normalize (colPat 1000 ++ pat 1) = colPat 1000 ++ colPat 1 := by
    unfold normalize
    rw [lowerStep_append, lowerStep_pat, lowerStep_colPat,
      punctStep_append, punctStep_pat, punctStep_colPat,
      subWS_colPat_append, subWS_pat_full 1 1000 (by omega)]
  rw [h1, h2]
  intro h
  have hl := congrArg List.length h
  simp only [List.length_append, pat_length, colPat_length] at hl
  omega

/-- Cons unfolding of the adjacent-whitespace test. -/
theorem hasAdjSpace_cons (c : Nat) (rest : PyStr) :
    hasAdjSpace (c :: rest) = ((pySpace c && headSpace rest) || hasAdjSpace rest) := by
  cases rest <;> simp [hasAdjSpace, headSpace]

/-- The collapsing pass in the false state preserves whether the string
starts with whitespace. -/
theorem headSpace_subWS (k : Nat) (l : PyStr) :
    headSpace (subWS k false l) = headSpace l := by
  cases l with
  | nil => rfl
  | cons c cs =>
    by_cases hc : pySpace c = true
    · cases cs with
      | nil =>
        rw [subWS_cons_single k c [] hc rfl]
        rfl
      | cons c2 t =>
        by_cases hc2 : pySpace c2 = true
        · cases k with
          | zero => rw [subWS_zero]
          | succ k' =>
            rw [subWS_cons_collapse k' c c2 t hc hc2]
            show pySpace 32 = pySpace c
            rw [pySpace32, hc]
        · rw [subWS_cons_single k c (c2 :: t) hc (by simpa using hc2)]
          rfl
    · rw [subWS_cons_nonspace k c cs (by simpa using hc)]
      rfl

/-- Every codepoint of the output of the collapsing pass is a space or a
codepoint of the input. -/
theorem mem_subWS (x : Nat) : ∀ (l : PyStr) (k : Nat) (b : Bool),
    x ∈ subWS k b l → x = 32 ∨ x ∈ l := by
  intro l
  induction l with
  | nil =>
    intro k b h
    cases b <;> simp [subWS] at h
  | cons c cs ih =>
    intro k b h
    cases b with
    | true =>
      by_cases hc : pySpace c = true
      · rw [subWS_true_space k c cs hc] at h
        rcases ih k true h with h32 | hm
        · exact Or.inl h32
        · exact Or.inr (List.mem_cons_of_mem _ hm)
      · rw [subWS_true_nonspace k c cs (by simpa using hc)] at h
        rcases List.mem_cons.mp h with rfl | h'
        · exact Or.inr (List.mem_cons_self _ _)
        · rcases ih k false h' with h32 | hm
          · exact Or.inl h32
          · exact Or.inr (List.mem_cons_of_mem _ hm)
    | false =>
      by_cases hc : pySpace c = true
      · cases cs with
        | nil =>
          rw [subWS_cons_single k c [] hc rfl] at h
          rcases List.mem_cons.mp h with rfl | h'
          · exact Or.inr (List.mem_cons_self _ _)
          · rcases ih k false h' with h32 | hm
            · exact Or.inl h32
            · exact Or.inr (List.mem_cons_of_mem _ hm)
        | cons c2 t =>
          by_cases hc2 : pySpace c2 = true
          · cases k with
            | zero =>
              rw [subWS_zero] at h
              exact Or.inr h
            | succ k' =>
              rw [subWS_cons_collapse k' c c2 t hc hc2] at h
              rcases List.mem_cons.mp h with rfl | h'
              · exact Or.inl rfl
              · rcases ih k' true h' with h32 | hm
                · exact Or.inl h32
                · exact Or.inr (List.mem_cons_of_mem _ hm)
          · rw [subWS_cons_single k c (c2 :: t) hc (by simpa using hc2)] at h
            rcases List.mem_cons.mp h with rfl | h'
            · exact Or.inr (List.mem_cons_self _ _)
            · rcases ih k false h' with h32 | hm
              · exact Or.inl h32
              · exact Or.inr (List.mem_cons_of_mem _ hm)
      · rw [subWS_cons_nonspace k c cs (by simpa using hc)] at h
        rcases List.mem_cons.mp h with rfl | h'
        · exact Or.inr (List.mem_cons_self _ _)
        · rcases ih k false h' with h32 | hm
          · exact Or.inl h32
          · exact Or.inr (List.mem_cons_of_mem _ hm)

/-- A map whose function fixes every element of a list fixes the list. -/
theorem map_fix {f : Nat → Nat} : ∀ {l : PyStr}, (∀ x ∈ l, f x = x) → l.map f = l := by
  intro l
  induction l with
  | nil => intro _; rfl
  | cons c cs ih =>
    intro h
    simp only [List.map_cons]
    rw [h c (List.mem_cons_self _ _), ih (fun x hx => h x (List.mem_cons_of_mem _ hx))]

/-- Punctuation replacement is idempotent on codepoints: a space is not
punctuation. -/
theorem punctNat_idem (n : Nat) : punctNat (punctNat n) = punctNat n := by
  simp only [punctNat, pyPunct]
  split_ifs <;> simp_all

/-- On a string with no adjacent whitespace, the collapsing pass copies its
input at any budget. -/
theorem subWS_noAdj_id : ∀ (l : PyStr) (k : Nat),
    hasAdjSpace l = false → subWS k false l = l := by
  intro l
  induction l with
  | nil => intro k _; rfl
  | cons c cs ih =>
    intro k h
    rw [hasAdjSpace_cons, Bool.or_eq_false_iff] at h
    obtain ⟨h1, h2⟩ := h
    by_cases hc : pySpace c = true
    · have hcs : headSpace cs = false := by
        cases hh : headSpace cs
        · rfl
        · rw [hc, hh] at h1
          simp at h1
      rw [subWS_cons_single k c cs hc hcs, ih k h2]
    · rw [subWS_cons_nonspace k c cs (by simpa using hc), ih k h2]

/-- Core collapse invariant: when the budget covers the number of runs (in
the matching scanning state), the output has no adjacent whitespace; and in
the true state the output starts with a non-whitespace character. -/
theorem subWS_collapse : ∀ (l : PyStr) (k : Nat) (b : Bool),
    countRuns b l ≤ k →
    hasAdjSpace (subWS k b l) = false ∧
    (b = true → headSpace (subWS k b l) = false) := by
  intro l
  induction l with
  | nil =>
    intro k b _
    refine ⟨?_, fun _ => ?_⟩ <;> cases b <;> rfl
  | cons c cs ih =>
    intro k b hcnt
    cases b with
    | true =>
      by_cases hc : pySpace c = true
      · have hcnt' : countRuns true cs ≤ k := by simpa [countRuns, hc] using hcnt
        rw [subWS_true_space k c cs hc]
        exact ih k true hcnt'
      · have hc' : pySpace c = false := by simpa using hc
        have hcnt' : countRuns false cs ≤ k := by simpa [countRuns, hc'] using hcnt
        rw [subWS_true_nonspace k c cs hc']
        obtain ⟨ha, -⟩ := ih k false hcnt'
        refine ⟨?_, fun _ => hc'⟩
        rw [hasAdjSpace_cons, headSpace_subWS, hc']
        simp [ha]
    | false =>
      by_cases hc : pySpace c = true
      · cases cs with
        | nil =>
          rw [subWS_cons_single k c [] hc rfl]
          exact ⟨rfl, fun hb => by cases hb⟩
        | cons c2 t =>
          by_cases hc2 : pySpace c2 = true
          · cases k with
            | zero =>
              exfalso
              simp [countRuns, hc, hc2] at hcnt
            | succ k' =>
              have hcnt' : countRuns true (c2 :: t) ≤ k' := by
                have he : countRuns false (c :: c2 :: t) = 1 + countRuns true (c2 :: t) := by
                  simp [countRuns, hc, hc2]
                rw [he] at hcnt
                omega
              rw [subWS_cons_collapse k' c c2 t hc hc2]
              obtain ⟨ha, hh⟩ := ih k' true hcnt'
              refine ⟨?_, fun hb => by cases hb⟩
              rw [hasAdjSpace_cons, hh rfl]
              simp [ha]
          · have hc2' : pySpace c2 = false := by simpa using hc2
            have hcnt' : countRuns false (c2 :: t) ≤ k := by
              simpa [countRuns, hc, hc2'] using hcnt
            rw [subWS_cons_single k c (c2 :: t) hc hc2']
            obtain ⟨ha, -⟩ := ih k false hcnt'
            refine ⟨?_, fun hb => by cases hb⟩
            rw [hasAdjSpace_cons, headSpace_subWS]
            show (pySpace c && pySpace c2 || hasAdjSpace (subWS k false (c2 :: t))) = false
            rw [hc2', ha]
            simp
      · have hc' : pySpace c = false := by simpa using hc
        have hcnt' : countRuns false cs ≤ k := by simpa [countRuns, hc'] using hcnt
        rw [subWS_cons_nonspace k c cs hc']
        obtain ⟨ha, -⟩ := ih k false hcnt'
        refine ⟨?_, fun hb => by cases hb⟩
        rw [hasAdjSpace_cons, headSpace_subWS, hc']
        simp [ha]

/-- C7 (amended): the normalization performed inside is_match_title is
idempotent on every string whose lowercased, punctuation-replaced form
contains at most 1000 collapsible whitespace runs; the replacement budget of
the regex sub then collapses all of them, and a second normalization changes
nothing.  Beyond 1000 runs the count cap breaks idempotency, so the claim as
stated fails (see the counterexample). -/
theorem normalizeIdempotent (s : PyStr)
    (h : countRuns false (punctStep (lowerStep s)) ≤ 1000) :
    normalize (normalize s) = normalize s := by
  have hfix : ∀ x ∈ subWS 1000 false (punctStep (lowerStep s)),
      lowerNat x = x ∧ punctNat x = x := by
    intro x hx
    rcases mem_subWS x _ _ _ hx with rfl | hxl
    · exact ⟨rfl, rfl⟩
    · simp only [punctStep, lowerStep, List.map_map, List.mem_map] at hxl
      obtain ⟨y, -, rfl⟩ := hxl
      refine ⟨?_, punctNat_idem _⟩
      show lowerNat (punctNat (lowerNat y)) = punctNat (lowerNat y)
      rw [lowerNat_punctNat, lowerNat_idem]
  have hL : lowerStep (subWS 1000 false (punctStep (lowerStep s))) =
      subWS 1000 false (punctStep (lowerStep s)) :=
    map_fix (fun x hx => (hfix x hx).1)
  have hP : punctStep (subWS 1000 false (punctStep (lowerStep s))) =
      subWS 1000 false (punctStep (lowerStep s)) :=
    map_fix (fun x hx => (hfix x hx).2)
  unfold normalize
  rw [hL, hP]
  exact subWS_noAdj_id _ 1000 (subWS_collapse _ 1000 false h).1

/-- Witness for normalizeIdempotent on a concrete punctuated title with a
double space. -/
theorem normalizeIdempotentWitness :
    normalize (normalize (codes "Attention,  Is All -- You Need!")) =
      normalize (codes "Attention,  Is All -- You Need!") :=
  normalizeIdempotent (codes "Attention,  Is All -- You Need!") (by decide)

end Pyss
